import Mathlib

/-!
Shallow embedding of the Clivra study-planning core
(`src/lib/study-algorithm.ts` and the revision-aware variant of the
algorithm shipped alongside it).  JavaScript numbers are modelled as exact
rationals (`ℚ`); timestamps are milliseconds since the epoch (`ℤ`); minute
budgets are naturals.  `Date.now()` is the explicit parameter `now`, the
only faithful rendering of an internal clock read.
-/

namespace Clivra

/-- JS `Math.round`: round half toward +∞. -/
def jsRound (x : ℚ) : ℤ := ⌊x + 1/2⌋

/-- Milliseconds per day, the divisor used in every `daysSince` computation. -/
def msPerDay : ℤ := 1000 * 60 * 60 * 24

/-- Computation `Math.floor((now - t) / 86400000)` for integer millisecond
timestamps. -/
def daysSince (now t : ℤ) : ℤ := Int.fdiv (now - t) msPerDay

inductive Strength where
  | weak
  | average
  | strong
deriving DecidableEq

/-- Record of a `topics` table row as consumed by the algorithm (string timestamps are
modelled as their parsed epoch-millisecond values). -/
structure Topic where
  id : String
  name : String
  confidence_level : ℚ
  priority_score : ℚ
  estimated_hours : ℚ
  completed_hours : ℚ
  last_studied_at : Option ℤ
  next_revision_at : Option ℤ
  revision_count : ℤ
  is_completed : Bool
  last_revision_date : Option ℤ := none
deriving DecidableEq

structure Subject where
  id : String
  name : String
  strength : Strength
  color : String
  topics : List Topic := []
deriving DecidableEq

inductive SessionType where
  | learning
  | revision
  | recall
deriving DecidableEq

structure ScheduleSession where
  topicId : String
  topicName : String
  subjectName : String
  subjectColor : String
  type : SessionType
  durationMinutes : ℕ
  priorityScore : ℤ
  reason : String
  isRevisionScheduled : Bool := false
deriving DecidableEq

instance : Inhabited ScheduleSession :=
  ⟨{ topicId := "", topicName := "", subjectName := "", subjectColor := ""
     type := SessionType.learning, durationMinutes := 0, priorityScore := 0
     reason := "" }⟩

/-- Constant table `STRENGTH_SCORES`. -/
def STRENGTH_SCORES : Strength → ℚ
  | .weak => 100
  | .average => 60
  | .strong => 30

structure PriorityResult where
  score : ℤ
  reasons : List String
deriving DecidableEq

/-- Embedding of `calculateTopicPriority` (identical in both copies of the
algorithm in the source).  Here `now` renders the internal `Date.now()` call. -/
def calculateTopicPriority (now : ℤ) (topic : Topic) (subjectStrength : Strength)
    (daysUntilExam : ℤ) : PriorityResult :=
  -- 1. subject strength factor
  let strengthScore := STRENGTH_SCORES subjectStrength
  let strengthContribution := strengthScore / 100 * 30
  let reasons1 : List String :=
    if subjectStrength = Strength.weak then ["Weak subject needs attention"] else []
  -- 2. urgency factor
  let urgencyScore : ℚ :=
    if daysUntilExam ≤ 7 then 100
    else if daysUntilExam ≤ 30 then 80
    else if daysUntilExam ≤ 60 then 50
    else 30
  let urgencyContribution := urgencyScore / 100 * 25
  let reasons2 := reasons1 ++
    (if daysUntilExam ≤ 7 then ["Exam is less than a week away!"]
     else if daysUntilExam ≤ 30 then ["Exam approaching soon"] else [])
  -- 3. confidence factor
  let confidenceScore := (5 - topic.confidence_level) / 4 * 100
  let confidenceContribution := confidenceScore / 100 * 25
  let reasons3 := reasons2 ++
    (if topic.confidence_level ≤ 2 then ["Low confidence - needs more practice"] else [])
  -- 4. recency factor
  let recencyPair : ℚ × List String :=
    match topic.last_studied_at with
    | some t =>
        let d := daysSince now t
        let recencyScore : ℚ :=
          if 14 ≤ d then 100 else if 7 ≤ d then 75 else if 3 ≤ d then 50 else 25
        (recencyScore, if 7 ≤ d then ["Due for revision"] else [])
    | none => (100, ["Never studied before"])
  let recencyContribution := recencyPair.1 / 100 * 15
  let reasons4 := reasons3 ++ recencyPair.2
  -- 5. completion factor
  let completionRate :=
    if 0 < topic.estimated_hours then topic.completed_hours / topic.estimated_hours else 0
  let completionScore := (1 - completionRate) * 100
  let completionContribution := completionScore / 100 * 5
  let totalScore := strengthContribution + urgencyContribution + confidenceContribution
    + recencyContribution + completionContribution
  { score := jsRound (min 100 (max 0 totalScore)), reasons := reasons4 }

structure RevisionEligibility where
  isEligible : Bool
  reasons : List String
  urgencyScore : ℚ
deriving DecidableEq

/-- Embedding of `checkRevisionEligibility` from the revision-aware algorithm.
`daysSinceRevision` starts as `Infinity` in the source; it is modelled as
`Option ℤ` with `none` standing for `Infinity` (so the `≥ 7` test is true
and `min(days*5, 50)` is `50` in that case). -/
def checkRevisionEligibility (now : ℤ) (topic : Topic) (daysUntilExam : ℤ) :
    RevisionEligibility :=
  let hasBeenStudied : Bool :=
    decide (topic.last_studied_at ≠ none) || decide (0 < topic.completed_hours)
  let lowConfidence : Bool := decide (topic.confidence_level ≤ 3)
  let reasons1 : List String :=
    if lowConfidence then
      ["Low confidence (" ++ toString topic.confidence_level ++ "/5)"] else []
  let urgency1 : ℚ :=
    if lowConfidence then (3 - topic.confidence_level + 1) * 20 else 0
  let daysSinceRevision : Option ℤ :=
    match topic.last_revision_date, topic.last_studied_at with
    | some d, _ => some (daysSince now d)
    | none, some d => some (daysSince now d)
    | none, none => none
  let needsRevisionByTime : Bool :=
    match daysSinceRevision with
    | some k => decide (7 ≤ k)
    | none => true
  let reasons2 := reasons1 ++
    (if needsRevisionByTime && hasBeenStudied then
      ["Not revised in " ++
        (match daysSinceRevision with
         | some k => toString k
         | none => "Infinity") ++ " days"] else [])
  let urgency2 := urgency1 +
    (if needsRevisionByTime && hasBeenStudied then
      (match daysSinceRevision with
       | some k => min ((k : ℚ) * 5) 50
       | none => 50) else 0)
  let reasons3 := reasons2 ++
    (if daysUntilExam ≤ 7 then ["Exam approaching - final revision needed"] else [])
  let urgency3 := urgency2 +
    (if daysUntilExam ≤ 7 then 30 else if daysUntilExam ≤ 14 then 20 else 0)
  { isEligible := hasBeenStudied && (lowConfidence || needsRevisionByTime)
    reasons := reasons3
    urgencyScore := min urgency3 100 }

/-- Embedding of `calculateRevisionPriority` (named `scoreRevisionPriority`
in the spec). -/
def calculateRevisionPriority (now : ℤ) (topic : Topic) (subjectStrength : Strength)
    (daysUntilExam : ℤ) : PriorityResult :=
  -- 1. days since last revision (defaults to 0 when no dates exist)
  let daysSinceRevision : ℤ :=
    match topic.last_revision_date, topic.last_studied_at with
    | some d, _ => daysSince now d
    | none, some d => daysSince now d
    | none, none => 0
  let recencyScore : ℚ := min ((daysSinceRevision : ℚ) * 5) 100
  let reasons1 : List String :=
    if 14 ≤ daysSinceRevision then ["Overdue for revision"]
    else if 7 ≤ daysSinceRevision then ["Due for scheduled revision"] else []
  -- 2. confidence
  let confidenceScore := (5 - topic.confidence_level) / 4 * 100
  let reasons2 := reasons1 ++
    (if topic.confidence_level ≤ 2 then ["Low confidence - revision critical"]
     else if topic.confidence_level ≤ 3 then ["Moderate confidence - revision recommended"]
     else [])
  -- 3. exam proximity
  let proximityScore : ℚ :=
    if daysUntilExam ≤ 7 then 100
    else if daysUntilExam ≤ 14 then 80
    else if daysUntilExam ≤ 30 then 60
    else 30
  -- 4. original difficulty
  let difficultyScore := STRENGTH_SCORES subjectStrength
  let reasons3 := reasons2 ++
    (if subjectStrength = Strength.weak then ["Weak subject - extra attention needed"] else [])
  let totalScore := recencyScore / 100 * 35 + confidenceScore / 100 * 30
    + proximityScore / 100 * 20 + difficultyScore / 100 * 15
  { score := jsRound (min 100 (max 0 totalScore)), reasons := reasons3 }

/-- A learning candidate as accumulated by `generateDailySchedule`. -/
structure LearnCand where
  topic : Topic
  subject : Subject
  priority : PriorityResult
deriving DecidableEq

/-- A revision candidate as accumulated by `generateDailySchedule`. -/
structure RevCand where
  topic : Topic
  subject : Subject
  revisionPriority : PriorityResult
  eligibility : RevisionEligibility
deriving DecidableEq

/-- The `subjects.forEach / topics.forEach` flattening, in traversal order. -/
def allTopicPairs (subjects : List Subject) : List (Subject × Topic) :=
  subjects.flatMap fun s => s.topics.map fun t => (s, t)

/-- The learning/revision partition built during the traversal of
`generateDailySchedule` (completed topics skipped, eligible topics pushed to
the revision list, the rest to the learning list; push order = traversal
order). -/
def collectCandidates (now : ℤ) (daysUntilExam : ℤ) (subjects : List Subject) :
    List LearnCand × List RevCand :=
  let pairs := (allTopicPairs subjects).filter fun p => !p.2.is_completed
  let learn := (pairs.filter fun p =>
      !(checkRevisionEligibility now p.2 daysUntilExam).isEligible).map fun p =>
    { topic := p.2, subject := p.1
      priority := calculateTopicPriority now p.2 p.1.strength daysUntilExam }
  let rev := (pairs.filter fun p =>
      (checkRevisionEligibility now p.2 daysUntilExam).isEligible).map fun p =>
    { topic := p.2, subject := p.1
      revisionPriority := calculateRevisionPriority now p.2 p.1.strength daysUntilExam
      eligibility := checkRevisionEligibility now p.2 daysUntilExam }
  (learn, rev)

/-- Stable insertion used to model `Array.prototype.sort` (stable per the
ECMAScript spec) under the comparator `(a, b) => b.score - a.score`:
descending by key, ties kept in original order. -/
def insertDesc (key : α → ℤ) (a : α) : List α → List α
  | [] => [a]
  | b :: l => if key b ≤ key a then a :: b :: l else b :: insertDesc key a l

/-- Stable descending sort by an integer key. -/
def sortByDesc (key : α → ℤ) : List α → List α
  | [] => []
  | a :: l => insertDesc key a (sortByDesc key l)

/-- First allocation pass of `generateDailySchedule`: greedily consume the
sorted revision candidates.  Returns the sessions pushed, the remaining
minutes and the final `revisionAllocated` counter.  The two `break`
statements of the source are the stopping disjunction. -/
def revisionLoop (revisionBudget sessionDuration pomodoroWorkMinutes : ℕ) :
    List RevCand → ℕ → ℕ → List ScheduleSession × ℕ × ℕ
  | [], remainingMinutes, revisionAllocated => ([], remainingMinutes, revisionAllocated)
  | c :: rest, remainingMinutes, revisionAllocated =>
    if remainingMinutes < pomodoroWorkMinutes ∨ revisionBudget ≤ revisionAllocated then
      ([], remainingMinutes, revisionAllocated)
    else
      let isQuickRecall : Bool :=
        decide (3 ≤ c.topic.revision_count) && decide (3 ≤ c.topic.confidence_level)
      let duration :=
        if isQuickRecall then min pomodoroWorkMinutes remainingMinutes
        else min sessionDuration remainingMinutes
      let sessionType := if isQuickRecall then SessionType.recall else SessionType.revision
      let s : ScheduleSession :=
        { topicId := c.topic.id, topicName := c.topic.name
          subjectName := c.subject.name, subjectColor := c.subject.color
          type := sessionType, durationMinutes := duration
          priorityScore := c.revisionPriority.score
          reason := c.eligibility.reasons.headD "Scheduled due to revision cycle"
          isRevisionScheduled := true }
      let revisionAllocated' :=
        if isQuickRecall then revisionAllocated else revisionAllocated + duration
      let rec_result :=
        revisionLoop revisionBudget sessionDuration pomodoroWorkMinutes rest
          (remainingMinutes - duration) revisionAllocated'
      (s :: rec_result.1, rec_result.2)

/-- Second allocation pass: greedily consume the sorted learning candidates
with the remaining time (double session for never-studied topics). -/
def learningLoop (sessionDuration : ℕ) :
    List LearnCand → ℕ → List ScheduleSession × ℕ
  | [], remainingMinutes => ([], remainingMinutes)
  | c :: rest, remainingMinutes =>
    if remainingMinutes < sessionDuration then ([], remainingMinutes)
    else
      let duration :=
        if c.topic.last_studied_at = none then min (sessionDuration * 2) remainingMinutes
        else min sessionDuration remainingMinutes
      let s : ScheduleSession :=
        { topicId := c.topic.id, topicName := c.topic.name
          subjectName := c.subject.name, subjectColor := c.subject.color
          type := SessionType.learning, durationMinutes := duration
          priorityScore := c.priority.score
          reason := c.priority.reasons.headD "Scheduled for today"
          isRevisionScheduled := false }
      let rec_result := learningLoop sessionDuration rest (remainingMinutes - duration)
      (s :: rec_result.1, rec_result.2)

/-- The schedule in allocation order (revision pass then learning pass),
before the final interleaving step. -/
def allocSchedule (now : ℤ) (subjects : List Subject) (availableMinutes : ℕ)
    (pomodoroWorkMinutes pomodoroBreakMinutes : ℕ) (daysUntilExam : ℤ) :
    List ScheduleSession :=
  let cands := collectCandidates now daysUntilExam subjects
  let sortedLearn := sortByDesc (fun c => c.priority.score) cands.1
  let sortedRev := sortByDesc (fun c => c.revisionPriority.score) cands.2
  let sessionDuration := pomodoroWorkMinutes + pomodoroBreakMinutes
  let revisionBudget := availableMinutes * 40 / 100
  let revPass :=
    revisionLoop revisionBudget sessionDuration pomodoroWorkMinutes sortedRev
      availableMinutes 0
  let learnPass := learningLoop sessionDuration sortedLearn revPass.2.1
  revPass.1 ++ learnPass.1

/-- The final `while` loop of `generateDailySchedule`: each iteration pushes
up to two non-revision sessions then one revision session.  When the
non-revision list is exhausted the loop drains the revision list one per
iteration (hence the `rs` tail cases). -/
def interleave : List ScheduleSession → List ScheduleSession → List ScheduleSession
  | [], rs => rs
  | [o], [] => [o]
  | [o], r :: rs => o :: r :: rs
  | o1 :: o2 :: os, [] => o1 :: o2 :: interleave os []
  | o1 :: o2 :: os, r :: rs => o1 :: o2 :: r :: interleave os rs

/-- Embedding of `generateDailySchedule`, the revision-aware scheduler the spec's §4.2
describes (the variant with eligibility partition, 40% revision budget and
interleaving; the spec supersedes the simpler 60/30/10 variant). -/
def generateDailySchedule (now : ℤ) (subjects : List Subject) (availableMinutes : ℕ)
    (pomodoroWorkMinutes pomodoroBreakMinutes : ℕ) (daysUntilExam : ℤ) :
    List ScheduleSession :=
  let schedule :=
    allocSchedule now subjects availableMinutes pomodoroWorkMinutes
      pomodoroBreakMinutes daysUntilExam
  let revisionSessions := schedule.filter fun s => decide (s.type = SessionType.revision)
  let otherSessions := schedule.filter fun s => decide (s.type ≠ SessionType.revision)
  interleave otherSessions revisionSessions

/-- Rebuild rule stated by the spec: repeatedly append up to two sessions of
the non-revision list then one of the revision list, until both are
exhausted.  Written from the spec's words, to be compared with the code's
`interleave`. -/
def specInterleavePattern (os rs : List ScheduleSession) : List ScheduleSession :=
  if os.isEmpty ∧ rs.isEmpty then []
  else os.take 2 ++ rs.take 1 ++ specInterleavePattern (os.drop 2) (rs.drop 1)
termination_by os.length + rs.length
decreasing_by
  simp only [not_and, List.isEmpty_iff] at *
  cases os <;> cases rs <;> simp_all <;> omega

inductive ReadinessStatus where
  | not_ready
  | improving
  | almost_ready
  | exam_ready
deriving DecidableEq

structure ReadinessResult where
  status : ReadinessStatus
  percentage : ℤ
  message : String
deriving DecidableEq

/-- Embedding of `calculateExamReadiness` (identical in both copies of the
algorithm). -/
def calculateExamReadiness (completionPercentage averageConfidence
    consistencyStreak daysUntilExam : ℚ) : ReadinessResult :=
  let completionWeight : ℚ := 0.4
  let confidenceWeight : ℚ := 0.35
  let consistencyWeight : ℚ := 0.15
  let timeWeight : ℚ := 0.1
  let normalizedCompletion := completionPercentage / 100
  let normalizedConfidence := averageConfidence / 5
  let normalizedStreak := min (consistencyStreak / 14) 1
  let normalizedTime : ℚ :=
    if 0 < daysUntilExam then min (daysUntilExam / 30) 1 else 0
  let readinessScore := normalizedCompletion * completionWeight
    + normalizedConfidence * confidenceWeight
    + normalizedStreak * consistencyWeight
    + normalizedTime * timeWeight
  let percentage := jsRound (readinessScore * 100)
  if 80 ≤ percentage then
    { status := .exam_ready, percentage
      message := "You're well prepared! Keep up the consistency." }
  else if 60 ≤ percentage then
    { status := .almost_ready, percentage
      message := "Great progress! Focus on weak areas to get exam-ready." }
  else if 35 ≤ percentage then
    { status := .improving, percentage
      message := "You're making progress. Stay consistent with your schedule." }
  else
    { status := .not_ready, percentage
      message := "Let's build your study momentum. Start with high-priority topics." }

/-- IEEE-754 double as observable through the operations `rebalanceAfterMissed`
performs: a finite value (exact rational), an infinity, or `NaN`. -/
inductive JsNum where
  | num (q : ℚ)
  | posInf
  | negInf
  | nan
deriving DecidableEq

namespace JsNum

/-- JS `x / y` (the `-0` distinction never matters for the operations here). -/
def div : JsNum → JsNum → JsNum
  | nan, _ => nan
  | _, nan => nan
  | num a, num b =>
      if b = 0 then (if 0 < a then posInf else if a < 0 then negInf else nan)
      else num (a / b)
  | num _, posInf => num 0
  | num _, negInf => num 0
  | posInf, num b => if b < 0 then negInf else posInf
  | negInf, num b => if b < 0 then posInf else negInf
  | posInf, _ => nan
  | negInf, _ => nan

/-- JS `x * y`. -/
def mul : JsNum → JsNum → JsNum
  | nan, _ => nan
  | _, nan => nan
  | num a, num b => num (a * b)
  | num a, posInf => if 0 < a then posInf else if a < 0 then negInf else nan
  | num a, negInf => if 0 < a then negInf else if a < 0 then posInf else nan
  | posInf, num b => if 0 < b then posInf else if b < 0 then negInf else nan
  | negInf, num b => if 0 < b then negInf else if b < 0 then posInf else nan
  | posInf, posInf => posInf
  | posInf, negInf => negInf
  | negInf, posInf => negInf
  | negInf, negInf => posInf

/-- JS `x <= y` (false whenever an operand is `NaN`). -/
def jsLe : JsNum → JsNum → Bool
  | nan, _ => false
  | _, nan => false
  | negInf, _ => true
  | _, posInf => true
  | num a, num b => decide (a ≤ b)
  | posInf, num _ => false
  | posInf, negInf => false
  | num _, negInf => false

/-- JS `Math.ceil`. -/
def ceil : JsNum → JsNum
  | num q => num (⌈q⌉ : ℤ)
  | posInf => posInf
  | negInf => negInf
  | nan => nan

/-- JS `Math.round`. -/
def round : JsNum → JsNum
  | num q => num ((jsRound q : ℤ) : ℚ)
  | posInf => posInf
  | negInf => negInf
  | nan => nan

/-- JS `Math.min` (NaN-propagating). -/
def jsMin : JsNum → JsNum → JsNum
  | nan, _ => nan
  | _, nan => nan
  | negInf, _ => negInf
  | _, negInf => negInf
  | posInf, y => y
  | x, posInf => x
  | num a, num b => num (min a b)

end JsNum

/-- Numeric fields of the record `rebalanceAfterMissed` returns (the
`message` display string is omitted). -/
structure RebalanceResult where
  extraMinutesPerDay : JsNum
  daysToRecover : JsNum
deriving DecidableEq

/-- Embedding of `rebalanceAfterMissed` over JS number semantics so that the
division corner cases (`0/0`, division by a zero cap) are observable. -/
def rebalanceAfterMissed (missedMinutes remainingDays dailyStudyMinutes : JsNum)
    (maxOverloadPercentage : JsNum := JsNum.num 25) : RebalanceResult :=
  if remainingDays.jsLe (JsNum.num 0) then
    { extraMinutesPerDay := JsNum.num 0, daysToRecover := JsNum.num 0 }
  else
    let maxExtraPerDay :=
      (dailyStudyMinutes.mul (maxOverloadPercentage.div (JsNum.num 100))).round
    let idealRecoveryDays := (missedMinutes.div maxExtraPerDay).ceil
    let daysToRecover := idealRecoveryDays.jsMin remainingDays
    let extraMinutesPerDay := (missedMinutes.div daysToRecover).round
    let cappedExtra := extraMinutesPerDay.jsMin maxExtraPerDay
    { extraMinutesPerDay := cappedExtra, daysToRecover := daysToRecover }

structure RevisionSummary where
  overdueTopics : List Topic
  pendingRevisions : List Topic
  completedThisWeek : List Topic
  upcomingRevisions : List Topic
deriving DecidableEq

/-- Embedding of `getRevisionSummary` from `src/lib/study-algorithm.ts`.  The instants the
source derives from the wall clock (`startOfToday`, `endOfToday`, `weekAgo`,
`upcomingWindowEnd`, `now`) are explicit millisecond parameters; the
classification itself is embedded verbatim. -/
def getRevisionSummary (startOfToday endOfToday weekAgo upcomingWindowEnd now : ℤ) :
    List Topic → RevisionSummary
  | [] => ⟨[], [], [], []⟩
  | t :: rest =>
    let s := getRevisionSummary startOfToday endOfToday weekAgo upcomingWindowEnd now rest
    let completed :=
      match t.last_revision_date with
      | some d => if weekAgo ≤ d ∧ d ≤ now then t :: s.completedThisWeek else s.completedThisWeek
      | none => s.completedThisWeek
    match t.next_revision_at with
    | some revisionAt =>
      if revisionAt < startOfToday then
        ⟨t :: s.overdueTopics, s.pendingRevisions, completed, s.upcomingRevisions⟩
      else if startOfToday ≤ revisionAt ∧ revisionAt < endOfToday then
        ⟨s.overdueTopics, t :: s.pendingRevisions, completed, s.upcomingRevisions⟩
      else if endOfToday ≤ revisionAt ∧ revisionAt ≤ upcomingWindowEnd then
        ⟨s.overdueTopics, s.pendingRevisions, completed, t :: s.upcomingRevisions⟩
      else
        ⟨s.overdueTopics, s.pendingRevisions, completed, s.upcomingRevisions⟩
    | none => ⟨s.overdueTopics, s.pendingRevisions, completed, s.upcomingRevisions⟩

/-- Total scheduled minutes of a session list. -/
def totalTimeMinutes (l : List ScheduleSession) : ℕ :=
  (l.map fun s => s.durationMinutes).sum

/-- Minutes of type-"revision" sessions (recall sessions excluded, as in the
source's `revisionAllocated` counter). -/
def revisionTimeMinutes (l : List ScheduleSession) : ℕ :=
  (l.map fun s => if s.type = SessionType.revision then s.durationMinutes else 0).sum

/-- Sample studied low-confidence topic: revision-eligible, not recall. -/
def sampleRevTopic (i : String) : Topic :=
  { id := i, name := i, confidence_level := 1, priority_score := 0
    estimated_hours := 1, completed_hours := 0, last_studied_at := some 0
    next_revision_at := none, revision_count := 0, is_completed := false }

/-- Sample never-studied mastered topic: a learning candidate. -/
def sampleLearnTopic (i : String) : Topic :=
  { id := i, name := i, confidence_level := 5, priority_score := 0
    estimated_hours := 1, completed_hours := 0, last_studied_at := none
    next_revision_at := none, revision_count := 0, is_completed := false }

/-- A weak subject holding three revision-eligible topics. -/
def sampleWeakSubject : Subject :=
  { id := "w", name := "Weak", strength := .weak, color := "red"
    topics := [sampleRevTopic "a", sampleRevTopic "b", sampleRevTopic "c"] }

/-- A two-subject snapshot producing one learning and one revision session. -/
def sampleMixedSubjects : List Subject :=
  [ { id := "w", name := "Weak", strength := .weak, color := "red"
      topics := [sampleRevTopic "r"] }
  , { id := "s", name := "Strong", strength := .strong, color := "blue"
      topics := [sampleLearnTopic "l"] } ]

/-- Clock value used by the concrete scenarios: 20 days after the epoch
timestamps used in the sample topics. -/
def sampleNow : ℤ := 20 * 86400000

/-- A studied, mid-confidence topic used to exhibit clock dependence. -/
def sampleStudiedTopic : Topic :=
  { id := "t", name := "t", confidence_level := 3, priority_score := 0
    estimated_hours := 1, completed_hours := 0, last_studied_at := some 0
    next_revision_at := none, revision_count := 0, is_completed := false }

/-- The readiness score before rounding, as a standalone function. -/
def readinessRawScore (completionPercentage averageConfidence
    consistencyStreak daysUntilExam : ℚ) : ℚ :=
  completionPercentage / 100 * 0.4 + averageConfidence / 5 * 0.35
    + min (consistencyStreak / 14) 1 * 0.15
    + (if 0 < daysUntilExam then min (daysUntilExam / 30) 1 else 0) * 0.1

/-- Classification predicate of the `overdueTopics` bucket. -/
def overduePred (startOfToday : ℤ) (a : Topic) : Prop :=
  ∃ r, a.next_revision_at = some r ∧ r < startOfToday

/-- Classification predicate of the `pendingRevisions` bucket (the `else if`
chain makes the earlier test's failure part of the condition). -/
def pendingPred (startOfToday endOfToday : ℤ) (a : Topic) : Prop :=
  ∃ r, a.next_revision_at = some r ∧ ¬ r < startOfToday
    ∧ startOfToday ≤ r ∧ r < endOfToday

/-- Classification predicate of the `upcomingRevisions` bucket. -/
def upcomingPred (startOfToday endOfToday upcomingWindowEnd : ℤ) (a : Topic) : Prop :=
  ∃ r, a.next_revision_at = some r ∧ ¬ r < startOfToday
    ∧ ¬ (startOfToday ≤ r ∧ r < endOfToday)
    ∧ endOfToday ≤ r ∧ r ≤ upcomingWindowEnd

/-! ### Arithmetic lemmas -/

theorem jsRound_mono {x y : ℚ} (h : x ≤ y) : jsRound x ≤ jsRound y :=
  Int.floor_le_floor (by linarith)

theorem jsRound_zero : jsRound 0 = 0 := by
  norm_num [jsRound]

theorem jsRound_hundred : jsRound 100 = 100 := by
  norm_num [jsRound]

theorem jsRound_bounds {x : ℚ} (h0 : 0 ≤ x) (h1 : x ≤ 100) :
    0 ≤ jsRound x ∧ jsRound x ≤ 100 :=
  ⟨jsRound_zero ▸ jsRound_mono h0, jsRound_hundred ▸ jsRound_mono h1⟩

theorem jsRound_clamp01 (t : ℚ) :
    0 ≤ jsRound (min 100 (max 0 t)) ∧ jsRound (min 100 (max 0 t)) ≤ 100 :=
  jsRound_bounds (le_min (by norm_num) (le_max_left 0 t)) (min_le_left 100 _)

/-! ### Readiness estimator lemmas -/

theorem calculateExamReadiness_percentage (a b c d : ℚ) :
    (calculateExamReadiness a b c d).percentage = jsRound (readinessRawScore a b c d * 100) := by
  unfold calculateExamReadiness readinessRawScore
  dsimp only
  split_ifs <;> rfl

theorem readinessRawScore_mono_completion {a a' : ℚ} (b c d : ℚ) (h : a ≤ a') :
    readinessRawScore a b c d ≤ readinessRawScore a' b c d := by
  unfold readinessRawScore
  have : a / 100 * 0.4 ≤ a' / 100 * 0.4 := by linarith
  linarith

theorem readinessRawScore_mono_confidence (a : ℚ) {b b' : ℚ} (c d : ℚ) (h : b ≤ b') :
    readinessRawScore a b c d ≤ readinessRawScore a b' c d := by
  unfold readinessRawScore
  have : b / 5 * 0.35 ≤ b' / 5 * 0.35 := by linarith
  linarith

theorem readinessRawScore_mono_streak (a b : ℚ) {c c' : ℚ} (d : ℚ) (h : c ≤ c') :
    readinessRawScore a b c d ≤ readinessRawScore a b c' d := by
  unfold readinessRawScore
  have hm : min (c / 14) 1 ≤ min (c' / 14) 1 :=
    min_le_min (by linarith) le_rfl
  nlinarith [hm]

theorem readinessRawScore_mono_days (a b c : ℚ) {d d' : ℚ} (h : d ≤ d') :
    readinessRawScore a b c d ≤ readinessRawScore a b c d' := by
  unfold readinessRawScore
  rcases lt_or_le 0 d with hd | hd
  · have hd' : 0 < d' := lt_of_lt_of_le hd h
    have hm : min (d / 30) 1 ≤ min (d' / 30) 1 := min_le_min (by linarith) le_rfl
    simp only [if_pos hd, if_pos hd']
    nlinarith [hm]
  · rcases lt_or_le 0 d' with hd' | hd'
    · have hm : (0:ℚ) ≤ min (d' / 30) 1 := le_min (by positivity) (by norm_num)
      simp only [if_pos hd', if_neg (not_lt.mpr hd)]
      nlinarith [hm]
    · simp [if_neg (not_lt.mpr hd), if_neg (not_lt.mpr hd')]

theorem readinessRawScore_bounds {a b c : ℚ} (d : ℚ)
    (ha0 : 0 ≤ a) (ha1 : a ≤ 100) (hb0 : 0 ≤ b) (hb1 : b ≤ 5) (hc0 : 0 ≤ c) :
    0 ≤ readinessRawScore a b c d ∧ readinessRawScore a b c d ≤ 1 := by
  unfold readinessRawScore
  have h1 : 0 ≤ a / 100 * 0.4 ∧ a / 100 * 0.4 ≤ 0.4 := by constructor <;> linarith
  have h2 : 0 ≤ b / 5 * 0.35 ∧ b / 5 * 0.35 ≤ 0.35 := by constructor <;> linarith
  have h3 : 0 ≤ min (c / 14) 1 ∧ min (c / 14) 1 ≤ 1 :=
    ⟨le_min (by positivity) (by norm_num), min_le_right _ _⟩
  have h4 : 0 ≤ (if 0 < d then min (d / 30) 1 else 0)
      ∧ (if 0 < d then min (d / 30) 1 else 0) ≤ 1 := by
    split_ifs with hd
    · exact ⟨le_min (by positivity) (by norm_num), min_le_right _ _⟩
    · norm_num
  constructor <;> nlinarith [h3.1, h3.2, h4.1, h4.2]

/-! ### Priority engine range lemmas -/

theorem calculateTopicPriority_score_bounds (now : ℤ) (topic : Topic)
    (s : Strength) (d : ℤ) :
    0 ≤ (calculateTopicPriority now topic s d).score
      ∧ (calculateTopicPriority now topic s d).score ≤ 100 := by
  unfold calculateTopicPriority
  dsimp only
  exact jsRound_clamp01 _

theorem calculateRevisionPriority_score_bounds (now : ℤ) (topic : Topic)
    (s : Strength) (d : ℤ) :
    0 ≤ (calculateRevisionPriority now topic s d).score
      ∧ (calculateRevisionPriority now topic s d).score ≤ 100 := by
  unfold calculateRevisionPriority
  dsimp only
  exact jsRound_clamp01 _

/-! ### Interleaving lemmas -/

theorem totalTimeMinutes_nil : totalTimeMinutes [] = 0 := rfl

theorem totalTimeMinutes_cons (s : ScheduleSession) (l : List ScheduleSession) :
    totalTimeMinutes (s :: l) = s.durationMinutes + totalTimeMinutes l := by
  simp [totalTimeMinutes]

theorem revisionTimeMinutes_cons (s : ScheduleSession) (l : List ScheduleSession) :
    revisionTimeMinutes (s :: l)
      = (if s.type = SessionType.revision then s.durationMinutes else 0)
        + revisionTimeMinutes l := by
  simp [revisionTimeMinutes]

theorem interleave_perm : ∀ os rs : List ScheduleSession,
    List.Perm (interleave os rs) (os ++ rs)
  | [], rs => by simp [interleave]
  | [o], [] => by simp [interleave]
  | [o], r :: rs => by simp [interleave]
  | o1 :: o2 :: os, [] => by
      simpa [interleave] using ((interleave_perm os []).cons o2).cons o1
  | o1 :: o2 :: os, r :: rs => by
      have h := ((interleave_perm os rs).cons r).trans List.perm_middle.symm
      simpa [interleave] using (h.cons o2).cons o1

theorem totalTimeMinutes_perm {l₁ l₂ : List ScheduleSession} (h : l₁.Perm l₂) :
    totalTimeMinutes l₁ = totalTimeMinutes l₂ :=
  (h.map _).sum_eq

theorem revisionTimeMinutes_perm {l₁ l₂ : List ScheduleSession} (h : l₁.Perm l₂) :
    revisionTimeMinutes l₁ = revisionTimeMinutes l₂ :=
  (h.map _).sum_eq

theorem specInterleavePattern_nil_left : ∀ rs, specInterleavePattern [] rs = rs := by
  intro rs
  induction rs with
  | nil => unfold specInterleavePattern; simp
  | cons r rs ih => unfold specInterleavePattern; simp [ih]

theorem interleave_eq_spec : ∀ os rs : List ScheduleSession,
    interleave os rs = specInterleavePattern os rs
  | [], rs => by rw [specInterleavePattern_nil_left]; rfl
  | [o], [] => by
      unfold specInterleavePattern
      simp [interleave, specInterleavePattern_nil_left]
  | [o], r :: rs => by
      unfold specInterleavePattern
      simp [interleave, specInterleavePattern_nil_left]
  | o1 :: o2 :: os, [] => by
      unfold specInterleavePattern
      simp [interleave, interleave_eq_spec os []]
  | o1 :: o2 :: os, r :: rs => by
      unfold specInterleavePattern
      simp [interleave, interleave_eq_spec os rs]

/-! ### Allocation loop invariants -/

theorem revisionLoop_time (B sd w : ℕ) : ∀ (cands : List RevCand) (rem alloc : ℕ),
    totalTimeMinutes (revisionLoop B sd w cands rem alloc).1
      + (revisionLoop B sd w cands rem alloc).2.1 = rem := by
  intro cands
  induction cands with
  | nil => intro rem alloc; simp [revisionLoop, totalTimeMinutes]
  | cons c rest ih =>
    intro rem alloc
    simp only [revisionLoop]
    split_ifs with hguard hq
    · simp [totalTimeMinutes]
    · have := ih (rem - min w rem) (alloc)
      simp only [totalTimeMinutes_cons] at *
      omega
    · have := ih (rem - min sd rem) (alloc + min sd rem)
      simp only [totalTimeMinutes_cons] at *
      omega

theorem learningLoop_time (sd : ℕ) : ∀ (cands : List LearnCand) (rem : ℕ),
    totalTimeMinutes (learningLoop sd cands rem).1
      + (learningLoop sd cands rem).2 = rem := by
  intro cands
  induction cands with
  | nil => intro rem; simp [learningLoop, totalTimeMinutes]
  | cons c rest ih =>
    intro rem
    simp only [learningLoop]
    split_ifs with hguard hnew
    · simp [totalTimeMinutes]
    · have := ih (rem - min (sd * 2) rem)
      simp only [totalTimeMinutes_cons] at *
      omega
    · have := ih (rem - min sd rem)
      simp only [totalTimeMinutes_cons] at *
      omega

theorem totalTimeMinutes_append (l₁ l₂ : List ScheduleSession) :
    totalTimeMinutes (l₁ ++ l₂) = totalTimeMinutes l₁ + totalTimeMinutes l₂ := by
  simp [totalTimeMinutes]

theorem revisionTimeMinutes_append (l₁ l₂ : List ScheduleSession) :
    revisionTimeMinutes (l₁ ++ l₂) = revisionTimeMinutes l₁ + revisionTimeMinutes l₂ := by
  simp [revisionTimeMinutes]

theorem totalTimeMinutes_take_le (l : List ScheduleSession) (n : ℕ) :
    totalTimeMinutes (l.take n) ≤ totalTimeMinutes l := by
  conv_rhs => rw [← List.take_append_drop n l]
  rw [totalTimeMinutes_append]
  omega

theorem revisionLoop_take (B sd w : ℕ) : ∀ (cands : List RevCand) (rem alloc n : ℕ),
    totalTimeMinutes (((revisionLoop B sd w cands rem alloc).1).take n) ≤ rem := by
  intro cands
  induction cands with
  | nil => intro rem alloc n; simp [revisionLoop, totalTimeMinutes]
  | cons c rest ih =>
    intro rem alloc n
    simp only [revisionLoop]
    split_ifs with hguard hq
    · simp [totalTimeMinutes]
    · cases n with
      | zero => simp [totalTimeMinutes]
      | succ n =>
        have := ih (rem - min 25 rem) alloc n
        simp only [List.take_succ_cons, totalTimeMinutes_cons]
        have := ih (rem - min w rem) alloc n
        omega
    · cases n with
      | zero => simp [totalTimeMinutes]
      | succ n =>
        have := ih (rem - min sd rem) (alloc + min sd rem) n
        simp only [List.take_succ_cons, totalTimeMinutes_cons]
        omega

theorem learningLoop_take (sd : ℕ) : ∀ (cands : List LearnCand) (rem n : ℕ),
    totalTimeMinutes (((learningLoop sd cands rem).1).take n) ≤ rem := by
  intro cands
  induction cands with
  | nil => intro rem n; simp [learningLoop, totalTimeMinutes]
  | cons c rest ih =>
    intro rem n
    simp only [learningLoop]
    split_ifs with hguard hnew
    · simp [totalTimeMinutes]
    · cases n with
      | zero => simp [totalTimeMinutes]
      | succ n =>
        have := ih (rem - min (sd * 2) rem) n
        simp only [List.take_succ_cons, totalTimeMinutes_cons]
        omega
    · cases n with
      | zero => simp [totalTimeMinutes]
      | succ n =>
        have := ih (rem - min sd rem) n
        simp only [List.take_succ_cons, totalTimeMinutes_cons]
        omega

theorem revisionLoop_revTime (B sd w : ℕ) : ∀ (cands : List RevCand) (rem alloc : ℕ),
    (revisionLoop B sd w cands rem alloc).2.2
      = alloc + revisionTimeMinutes (revisionLoop B sd w cands rem alloc).1 := by
  intro cands
  induction cands with
  | nil => intro rem alloc; simp [revisionLoop, revisionTimeMinutes]
  | cons c rest ih =>
    intro rem alloc
    simp only [revisionLoop]
    split_ifs with hguard hq
    · simp [revisionTimeMinutes]
    · have := ih (rem - min w rem) alloc
      simp only [revisionTimeMinutes_cons] at *
      simp only [reduceCtorEq, if_neg, if_false]
      omega
    · have := ih (rem - min sd rem) (alloc + min sd rem)
      simp only [revisionTimeMinutes_cons] at *
      simp only [if_true]
      omega

theorem revisionLoop_alloc_le (B sd w : ℕ) : ∀ (cands : List RevCand) (rem alloc : ℕ),
    alloc ≤ B + sd → (revisionLoop B sd w cands rem alloc).2.2 ≤ B + sd := by
  intro cands
  induction cands with
  | nil => intro rem alloc h; simpa [revisionLoop] using h
  | cons c rest ih =>
    intro rem alloc h
    simp only [revisionLoop]
    split_ifs with hguard hq
    · simpa using h
    · exact ih (rem - min w rem) alloc h
    · refine ih (rem - min sd rem) (alloc + min sd rem) ?_
      have hmin : min sd rem ≤ sd := min_le_left _ _
      omega

theorem learningLoop_revTime (sd : ℕ) : ∀ (cands : List LearnCand) (rem : ℕ),
    revisionTimeMinutes (learningLoop sd cands rem).1 = 0 := by
  intro cands
  induction cands with
  | nil => intro rem; simp [learningLoop, revisionTimeMinutes]
  | cons c rest ih =>
    intro rem
    simp only [learningLoop]
    split_ifs with hguard hnew
    · simp [revisionTimeMinutes]
    · simp only [revisionTimeMinutes_cons, reduceCtorEq, if_neg, if_false]
      simpa using ih (rem - min (sd * 2) rem)
    · simp only [revisionTimeMinutes_cons, reduceCtorEq, if_neg, if_false]
      simpa using ih (rem - min sd rem)

/-- The interleaved output is a permutation of the allocation-order list. -/
theorem generateDailySchedule_perm (now : ℤ) (subjects : List Subject)
    (avail w b : ℕ) (d : ℤ) :
    List.Perm (generateDailySchedule now subjects avail w b d)
      (allocSchedule now subjects avail w b d) := by
  unfold generateDailySchedule
  dsimp only
  set l := allocSchedule now subjects avail w b d with hl
  refine (interleave_perm _ _).trans ?_
  refine List.perm_append_comm.trans ?_
  have hf : (l.filter fun s => decide (s.type ≠ SessionType.revision))
      = l.filter fun s => !(decide (s.type = SessionType.revision)) := by
    simp [decide_not]
  rw [hf]
  exact List.filter_append_perm (fun s => decide (s.type = SessionType.revision)) l

/-- Every prefix of the allocation-order schedule fits in the day budget. -/
theorem allocSchedule_take_le (now : ℤ) (subjects : List Subject)
    (avail w b : ℕ) (d : ℤ) (n : ℕ) :
    totalTimeMinutes ((allocSchedule now subjects avail w b d).take n) ≤ avail := by
  unfold allocSchedule
  dsimp only
  rw [List.take_append_eq_append_take, totalTimeMinutes_append]
  have h1 := totalTimeMinutes_take_le
    (revisionLoop (avail * 40 / 100) (w + b) w
      (sortByDesc (fun c => c.revisionPriority.score)
        (collectCandidates now d subjects).2) avail 0).1 n
  have h2 := revisionLoop_time (avail * 40 / 100) (w + b) w
    (sortByDesc (fun c => c.revisionPriority.score)
      (collectCandidates now d subjects).2) avail 0
  have h3 := learningLoop_take (w + b)
    (sortByDesc (fun c => c.priority.score) (collectCandidates now d subjects).1)
    (revisionLoop (avail * 40 / 100) (w + b) w
      (sortByDesc (fun c => c.revisionPriority.score)
        (collectCandidates now d subjects).2) avail 0).2.1
    (n - (revisionLoop (avail * 40 / 100) (w + b) w
      (sortByDesc (fun c => c.revisionPriority.score)
        (collectCandidates now d subjects).2) avail 0).1.length)
  omega

/-- Non-recall revision time of the allocation-order schedule is bounded by
the revision budget plus one session. -/
theorem allocSchedule_revTime_le (now : ℤ) (subjects : List Subject)
    (avail w b : ℕ) (d : ℤ) :
    revisionTimeMinutes (allocSchedule now subjects avail w b d)
      ≤ avail * 40 / 100 + (w + b) := by
  unfold allocSchedule
  dsimp only
  rw [revisionTimeMinutes_append]
  have h1 := revisionLoop_revTime (avail * 40 / 100) (w + b) w
    (sortByDesc (fun c => c.revisionPriority.score)
      (collectCandidates now d subjects).2) avail 0
  have h2 := revisionLoop_alloc_le (avail * 40 / 100) (w + b) w
    (sortByDesc (fun c => c.revisionPriority.score)
      (collectCandidates now d subjects).2) avail 0 (by omega)
  have h3 := learningLoop_revTime (w + b)
    (sortByDesc (fun c => c.priority.score) (collectCandidates now d subjects).1)
    (revisionLoop (avail * 40 / 100) (w + b) w
      (sortByDesc (fun c => c.revisionPriority.score)
        (collectCandidates now d subjects).2) avail 0).2.1
  omega

/-! ### Revision-summary bucket membership -/

theorem mem_iff_cons_skip {α} {P : α → Prop} {t : α} {rest L : List α} {a : α}
    (hP : ¬ P t) (ih : a ∈ L ↔ a ∈ rest ∧ P a) : a ∈ L ↔ a ∈ t :: rest ∧ P a := by
  rw [ih]
  constructor
  · rintro ⟨hm, hp⟩
    exact ⟨List.mem_cons_of_mem _ hm, hp⟩
  · rintro ⟨hm, hp⟩
    rcases List.mem_cons.mp hm with rfl | hm'
    · exact absurd hp hP
    · exact ⟨hm', hp⟩

theorem mem_iff_cons_push {α} {P : α → Prop} {t : α} {rest L : List α} {a : α}
    (hP : P t) (ih : a ∈ L ↔ a ∈ rest ∧ P a) : a ∈ t :: L ↔ a ∈ t :: rest ∧ P a := by
  rw [List.mem_cons, ih]
  constructor
  · rintro (rfl | ⟨hm, hp⟩)
    · exact ⟨List.mem_cons_self _ _, hP⟩
    · exact ⟨List.mem_cons_of_mem _ hm, hp⟩
  · rintro ⟨hm, hp⟩
    rcases List.mem_cons.mp hm with rfl | hm'
    · exact Or.inl rfl
    · exact Or.inr ⟨hm', hp⟩

theorem mem_overdueTopics (p1 p2 p3 p4 p5 : ℤ) (a : Topic) :
    ∀ ts : List Topic,
    a ∈ (getRevisionSummary p1 p2 p3 p4 p5 ts).overdueTopics
      ↔ a ∈ ts ∧ overduePred p1 a := by
  intro ts
  induction ts with
  | nil => simp [getRevisionSummary]
  | cons t rest ih =>
    simp only [getRevisionSummary]
    cases h : t.next_revision_at with
    | none =>
      refine mem_iff_cons_skip ?_ ih
      rintro ⟨r, hr, _⟩
      rw [h] at hr
      cases hr
    | some r =>
      dsimp only
      split_ifs with h1 h2 h3
      · exact mem_iff_cons_push ⟨r, h, h1⟩ ih
      · refine mem_iff_cons_skip ?_ ih
        rintro ⟨r', hr', hlt⟩
        rw [h] at hr'
        cases hr'
        exact h1 hlt
      · refine mem_iff_cons_skip ?_ ih
        rintro ⟨r', hr', hlt⟩
        rw [h] at hr'
        cases hr'
        exact h1 hlt
      · refine mem_iff_cons_skip ?_ ih
        rintro ⟨r', hr', hlt⟩
        rw [h] at hr'
        cases hr'
        exact h1 hlt

theorem mem_pendingRevisions (p1 p2 p3 p4 p5 : ℤ) (a : Topic) :
    ∀ ts : List Topic,
    a ∈ (getRevisionSummary p1 p2 p3 p4 p5 ts).pendingRevisions
      ↔ a ∈ ts ∧ pendingPred p1 p2 a := by
  intro ts
  induction ts with
  | nil => simp [getRevisionSummary]
  | cons t rest ih =>
    simp only [getRevisionSummary]
    cases h : t.next_revision_at with
    | none =>
      refine mem_iff_cons_skip ?_ ih
      rintro ⟨r, hr, _⟩
      rw [h] at hr
      cases hr
    | some r =>
      dsimp only
      split_ifs with h1 h2 h3
      · refine mem_iff_cons_skip ?_ ih
        rintro ⟨r', hr', hn, _, _⟩
        rw [h] at hr'
        cases hr'
        exact hn h1
      · exact mem_iff_cons_push ⟨r, h, h1, h2⟩ ih
      · refine mem_iff_cons_skip ?_ ih
        rintro ⟨r', hr', hn, hrange⟩
        rw [h] at hr'
        cases hr'
        exact h2 hrange
      · refine mem_iff_cons_skip ?_ ih
        rintro ⟨r', hr', hn, hrange⟩
        rw [h] at hr'
        cases hr'
        exact h2 hrange

theorem mem_upcomingRevisions (p1 p2 p3 p4 p5 : ℤ) (a : Topic) :
    ∀ ts : List Topic,
    a ∈ (getRevisionSummary p1 p2 p3 p4 p5 ts).upcomingRevisions
      ↔ a ∈ ts ∧ upcomingPred p1 p2 p4 a := by
  intro ts
  induction ts with
  | nil => simp [getRevisionSummary]
  | cons t rest ih =>
    simp only [getRevisionSummary]
    cases h : t.next_revision_at with
    | none =>
      refine mem_iff_cons_skip ?_ ih
      rintro ⟨r, hr, _⟩
      rw [h] at hr
      cases hr
    | some r =>
      dsimp only
      split_ifs with h1 h2 h3
      · refine mem_iff_cons_skip ?_ ih
        rintro ⟨r', hr', hn, _, _⟩
        rw [h] at hr'
        cases hr'
        exact hn h1
      · refine mem_iff_cons_skip ?_ ih
        rintro ⟨r', hr', hn, hne, _⟩
        rw [h] at hr'
        cases hr'
        exact hne h2
      · exact mem_iff_cons_push ⟨r, h, h1, h2, h3⟩ ih
      · refine mem_iff_cons_skip ?_ ih
        rintro ⟨r', hr', hn, hne, hrange⟩
        rw [h] at hr'
        cases hr'
        exact h3 hrange

/-! ### Claim theorems -/

/-- C1 (counterexample): with `availableMinutes = 110`, work/break 25/5 and
three revision-eligible topics, `generateDailySchedule` allocates 60 minutes
of "revision" sessions, exceeding `floor(110 * 0.40) = 44` — the budget test
runs before each allocation, so the last session overshoots the cap. -/
theorem C1_counterexample :
    ¬ (revisionTimeMinutes
        (generateDailySchedule sampleNow [sampleWeakSubject] 110 25 5 90)
        ≤ 110 * 40 / 100) := by
  have h : revisionTimeMinutes
      (generateDailySchedule sampleNow [sampleWeakSubject] 110 25 5 90) = 60 := by
    with_unfolding_all rfl
  rw [h]
  decide

/-- C1 (amended): the total duration of "revision" (non-recall) sessions in
any schedule produced by `generateDailySchedule` never exceeds
`floor(availableMinutes * 0.40)` plus one session duration
(`pomodoroWorkMinutes + pomodoroBreakMinutes`): each revision session starts
only while the allocated counter is still below the budget, so the overshoot
is bounded by a single session. -/
theorem C1_amended_revision_time_bound :
    ∀ (now : ℤ) (subjects : List Subject) (avail w b : ℕ) (d : ℤ),
    revisionTimeMinutes (generateDailySchedule now subjects avail w b d)
      ≤ avail * 40 / 100 + (w + b) := by
  intro now subjects avail w b d
  have hperm := revisionTimeMinutes_perm (generateDailySchedule_perm now subjects avail w b d)
  rw [hperm]
  exact allocSchedule_revTime_le now subjects avail w b d

/-- C2: every schedule returned by `generateDailySchedule` equals the
spec's rebuild — repeatedly up to two non-revision sessions then one
revision session (`O,O,R,…`) over the allocation-order partition — and the
output is not priority-score order: a concrete schedule containing both a
learning and a revision session lists them with scores `[37, 86]`,
which is not descending. -/
theorem C2_interleaved_not_priority_order :
    (∀ (now : ℤ) (subjects : List Subject) (avail w b : ℕ) (d : ℤ),
      generateDailySchedule now subjects avail w b d
        = specInterleavePattern
            ((allocSchedule now subjects avail w b d).filter
              fun s => decide (s.type ≠ SessionType.revision))
            ((allocSchedule now subjects avail w b d).filter
              fun s => decide (s.type = SessionType.revision)))
    ∧ ((generateDailySchedule sampleNow sampleMixedSubjects 120 25 5 90).map
          (fun s => s.type) = [SessionType.learning, SessionType.revision]
      ∧ ¬ List.Chain' (fun s₁ s₂ => s₂.priorityScore ≤ s₁.priorityScore)
          (generateDailySchedule sampleNow sampleMixedSubjects 120 25 5 90)) := by
  refine ⟨fun now subjects avail w b d => ?_, ?_, ?_⟩
  · unfold generateDailySchedule
    dsimp only
    exact interleave_eq_spec _ _
  · with_unfolding_all rfl
  · have hm : (generateDailySchedule sampleNow sampleMixedSubjects 120 25 5 90).map
        (fun s => s.priorityScore) = [37, 86] := by
      with_unfolding_all rfl
    intro hchain
    have h2 : List.Chain' (fun x y : ℤ => y ≤ x)
        ((generateDailySchedule sampleNow sampleMixedSubjects 120 25 5 90).map
          (fun s => s.priorityScore)) :=
      (List.chain'_map _).mpr hchain
    rw [hm] at h2
    have := List.chain'_cons.mp h2
    omega

/-- C3: in allocation order, each scheduled session's `durationMinutes` is at
most the budget remaining when it was scheduled (equivalently,
`availableMinutes` minus the time already allocated before it), and the sum
of all returned durations is at most `availableMinutes`. -/
theorem C3_durations_within_budget :
    ∀ (now : ℤ) (subjects : List Subject) (avail w b : ℕ) (d : ℤ),
    (∀ i : ℕ,
      ((allocSchedule now subjects avail w b d).getD i default).durationMinutes
        ≤ avail - totalTimeMinutes ((allocSchedule now subjects avail w b d).take i))
    ∧ totalTimeMinutes (generateDailySchedule now subjects avail w b d) ≤ avail := by
  intro now subjects avail w b d
  constructor
  · intro i
    rcases lt_or_le i (allocSchedule now subjects avail w b d).length with hi | hi
    · have htake := allocSchedule_take_le now subjects avail w b d (i + 1)
      have hsplit : (allocSchedule now subjects avail w b d).take (i + 1)
          = (allocSchedule now subjects avail w b d).take i
            ++ [(allocSchedule now subjects avail w b d).getD i default] := by
        rw [List.take_succ, List.getElem?_eq_getElem hi, List.getD_eq_getElem _ _ hi]
        rfl
      rw [hsplit, totalTimeMinutes_append, totalTimeMinutes_cons, totalTimeMinutes_nil]
        at htake
      omega
    · rw [List.getD_eq_default _ _ hi]
      exact Nat.zero_le _
  · have hperm := totalTimeMinutes_perm (generateDailySchedule_perm now subjects avail w b d)
    rw [hperm, ← List.take_length (allocSchedule now subjects avail w b d)]
    exact allocSchedule_take_le now subjects avail w b d _

/-- C4 (counterexample): `calculateTopicPriority` reads the clock internally
(`Date.now()`), so two calls with identical topic, strength and
days-until-exam arguments return different scores at different times: a
topic last studied at epoch 0 scores 38 when evaluated at epoch 0 (0 days
since study) and 49 when evaluated 20 days later. -/
theorem C4_counterexample :
    (calculateTopicPriority 0 sampleStudiedTopic Strength.strong 90).score = 38
    ∧ (calculateTopicPriority (20 * 86400000) sampleStudiedTopic Strength.strong 90).score = 49
    ∧ (calculateTopicPriority 0 sampleStudiedTopic Strength.strong 90).score
        ≠ (calculateTopicPriority (20 * 86400000) sampleStudiedTopic Strength.strong 90).score := by
  refine ⟨?_, ?_, ?_⟩
  · with_unfolding_all rfl
  · with_unfolding_all rfl
  · have h1 : (calculateTopicPriority 0 sampleStudiedTopic Strength.strong 90).score = 38 := by
      with_unfolding_all rfl
    have h2 : (calculateTopicPriority (20 * 86400000) sampleStudiedTopic
        Strength.strong 90).score = 49 := by
      with_unfolding_all rfl
    rw [h1, h2]
    decide

/-- C4 (amended): priority scoring is deterministic only once the
current-time reference is fixed; the engine reads the clock internally, so
only topics that were never studied (`last_studied_at = null`, where the
recency branch skips the clock) score independently of the call time. -/
theorem C4_amended_fixed_clock_determinism :
    ∀ (t : Topic) (s : Strength) (d : ℤ) (n₁ n₂ : ℤ),
    t.last_studied_at = none →
    calculateTopicPriority n₁ t s d = calculateTopicPriority n₂ t s d := by
  intro t s d n1 n2 h
  unfold calculateTopicPriority
  rw [h]

/-- Witness for C4 (amended) at a concrete never-studied topic. -/
theorem C4_amended_fixed_clock_determinism_witness :
    calculateTopicPriority 0 (sampleLearnTopic "l") Strength.strong 90
      = calculateTopicPriority sampleNow (sampleLearnTopic "l") Strength.strong 90 :=
  C4_amended_fixed_clock_determinism (sampleLearnTopic "l") Strength.strong 90 0 sampleNow rfl

/-- C5 (counterexample): `calculateExamReadiness` does not clamp its
percentage: at completion 200% (with confidence 5, streak 14, 30 days) it
returns 140, outside the documented range [0, 100]. -/
theorem C5_counterexample :
    (calculateExamReadiness 200 5 14 30).percentage = 140
    ∧ ¬ ((calculateExamReadiness 200 5 14 30).percentage ≤ 100) := by
  have h : (calculateExamReadiness 200 5 14 30).percentage = 140 := by
    with_unfolding_all rfl
  exact ⟨h, by rw [h]; decide⟩

/-- C5 (amended): the percentage lies in [0, 100] for inputs in their
documented ranges (completion in [0, 100], confidence in [0, 5],
non-negative streak; days-until-exam unrestricted, as the time factor is the
only internally clamped one among the out-of-range-prone inputs). -/
theorem C5_amended_clamped_for_valid_inputs (a b c d : ℚ)
    (ha0 : 0 ≤ a) (ha1 : a ≤ 100) (hb0 : 0 ≤ b) (hb1 : b ≤ 5) (hc0 : 0 ≤ c) :
    0 ≤ (calculateExamReadiness a b c d).percentage
    ∧ (calculateExamReadiness a b c d).percentage ≤ 100 := by
  rw [calculateExamReadiness_percentage]
  obtain ⟨h0, h1⟩ := readinessRawScore_bounds d ha0 ha1 hb0 hb1 hc0
  exact jsRound_bounds (by nlinarith) (by nlinarith)

/-- Witness for C5 (amended) at concrete in-range inputs. -/
theorem C5_amended_clamped_for_valid_inputs_witness :
    0 ≤ (calculateExamReadiness 50 3 7 (-4)).percentage
    ∧ (calculateExamReadiness 50 3 7 (-4)).percentage ≤ 100 :=
  C5_amended_clamped_for_valid_inputs 50 3 7 (-4) (by norm_num) (by norm_num)
    (by norm_num) (by norm_num) (by norm_num)

/-- C6: the percentage returned by `calculateExamReadiness` is monotonically
non-decreasing in each of its four arguments with the other three fixed. -/
theorem C6_readiness_monotone :
    (∀ (a a' b c d : ℚ), a ≤ a' →
      (calculateExamReadiness a b c d).percentage
        ≤ (calculateExamReadiness a' b c d).percentage)
    ∧ (∀ (a b b' c d : ℚ), b ≤ b' →
      (calculateExamReadiness a b c d).percentage
        ≤ (calculateExamReadiness a b' c d).percentage)
    ∧ (∀ (a b c c' d : ℚ), c ≤ c' →
      (calculateExamReadiness a b c d).percentage
        ≤ (calculateExamReadiness a b c' d).percentage)
    ∧ (∀ (a b c d d' : ℚ), d ≤ d' →
      (calculateExamReadiness a b c d).percentage
        ≤ (calculateExamReadiness a b c d').percentage) := by
  refine ⟨?_, ?_, ?_, ?_⟩
  · intro a a' b c d h
    rw [calculateExamReadiness_percentage, calculateExamReadiness_percentage]
    exact jsRound_mono (by nlinarith [readinessRawScore_mono_completion b c d h])
  · intro a b b' c d h
    rw [calculateExamReadiness_percentage, calculateExamReadiness_percentage]
    exact jsRound_mono (by nlinarith [readinessRawScore_mono_confidence a c d h])
  · intro a b c c' d h
    rw [calculateExamReadiness_percentage, calculateExamReadiness_percentage]
    exact jsRound_mono (by nlinarith [readinessRawScore_mono_streak a b d h])
  · intro a b c d d' h
    rw [calculateExamReadiness_percentage, calculateExamReadiness_percentage]
    exact jsRound_mono (by nlinarith [readinessRawScore_mono_days a b c h])

/-- Witness for C6 at concrete inputs (completion factor). -/
theorem C6_readiness_monotone_witness :
    (calculateExamReadiness 0 1 2 3).percentage
      ≤ (calculateExamReadiness 50 1 2 3).percentage :=
  C6_readiness_monotone.1 0 50 1 2 3 (by norm_num)

/-- C7 (counterexample): `calculateExamReadiness 0 1 0 30` returns
percentage 17, not 10 — the confidence factor contributes
`0.35 * (1/5) = 0.07` on top of the time factor's `0.10`. -/
theorem C7_counterexample :
    (calculateExamReadiness 0 1 0 30).percentage = 17
    ∧ (calculateExamReadiness 0 1 0 30).percentage ≠ 10 := by
  have h : (calculateExamReadiness 0 1 0 30).percentage = 17 := by
    with_unfolding_all rfl
  exact ⟨h, by rw [h]; decide⟩

/-- C7 (amended): `calculateExamReadiness 0 1 0 30` returns status
"not_ready" with percentage 17 (time factor 10 plus confidence factor 7). -/
theorem C7_amended_value :
    (calculateExamReadiness 0 1 0 30).status = ReadinessStatus.not_ready
    ∧ (calculateExamReadiness 0 1 0 30).percentage = 17 := by
  constructor
  · with_unfolding_all rfl
  · with_unfolding_all rfl

/-- C8: at `missedMinutes = 0` (with days remaining), `rebalanceAfterMissed`
computes `daysToRecover = ceil(0 / 45) = 0` and then divides `0 / 0`,
returning `extraMinutesPerDay = NaN` instead of a finite number. -/
theorem C8_zero_missed_returns_nan :
    (rebalanceAfterMissed (JsNum.num 0) (JsNum.num 5) (JsNum.num 180)
        (JsNum.num 25)).extraMinutesPerDay = JsNum.nan
    ∧ (rebalanceAfterMissed (JsNum.num 0) (JsNum.num 5) (JsNum.num 180)
        (JsNum.num 25)).daysToRecover = JsNum.num 0 := by
  constructor
  · with_unfolding_all rfl
  · with_unfolding_all rfl

/-- C9: for every topic, subject strength, days-until-exam (and clock
value), both `calculateTopicPriority` (the spec's `scoreLearningPriority`)
and `calculateRevisionPriority` (the spec's `scoreRevisionPriority`) return
an integer score in [0, 100]. -/
theorem C9_priority_scores_in_range :
    ∀ (now : ℤ) (topic : Topic) (s : Strength) (d : ℤ),
    (0 ≤ (calculateTopicPriority now topic s d).score
      ∧ (calculateTopicPriority now topic s d).score ≤ 100)
    ∧ (0 ≤ (calculateRevisionPriority now topic s d).score
      ∧ (calculateRevisionPriority now topic s d).score ≤ 100) :=
  fun now topic s d =>
    ⟨calculateTopicPriority_score_bounds now topic s d,
     calculateRevisionPriority_score_bounds now topic s d⟩

/-- C10: for every topic list and every choice of the day/window instants,
the three `next_revision_at` buckets of `getRevisionSummary` are pairwise
disjoint — the `if / else if` chain classifies each topic into at most one
of `overdueTopics`, `pendingRevisions`, `upcomingRevisions`. -/
theorem C10_revision_buckets_disjoint :
    ∀ (p1 p2 p3 p4 p5 : ℤ) (ts : List Topic),
    (getRevisionSummary p1 p2 p3 p4 p5 ts).overdueTopics
        ∩ (getRevisionSummary p1 p2 p3 p4 p5 ts).pendingRevisions = []
    ∧ (getRevisionSummary p1 p2 p3 p4 p5 ts).overdueTopics
        ∩ (getRevisionSummary p1 p2 p3 p4 p5 ts).upcomingRevisions = []
    ∧ (getRevisionSummary p1 p2 p3 p4 p5 ts).pendingRevisions
        ∩ (getRevisionSummary p1 p2 p3 p4 p5 ts).upcomingRevisions = [] := by
  intro p1 p2 p3 p4 p5 ts
  refine ⟨List.inter_eq_nil_iff_disjoint.mpr ?_,
    List.inter_eq_nil_iff_disjoint.mpr ?_, List.inter_eq_nil_iff_disjoint.mpr ?_⟩
  · intro a h1 h2
    obtain ⟨-, r, hr, hlt⟩ := (mem_overdueTopics p1 p2 p3 p4 p5 a ts).mp h1
    obtain ⟨-, r', hr', hn, -, -⟩ := (mem_pendingRevisions p1 p2 p3 p4 p5 a ts).mp h2
    rw [hr] at hr'
    cases hr'
    exact hn hlt
  · intro a h1 h2
    obtain ⟨-, r, hr, hlt⟩ := (mem_overdueTopics p1 p2 p3 p4 p5 a ts).mp h1
    obtain ⟨-, r', hr', hn, -, -⟩ := (mem_upcomingRevisions p1 p2 p3 p4 p5 a ts).mp h2
    rw [hr] at hr'
    cases hr'
    exact hn hlt
  · intro a h1 h2
    obtain ⟨-, r, hr, -, hrange⟩ := (mem_pendingRevisions p1 p2 p3 p4 p5 a ts).mp h1
    obtain ⟨-, r', hr', -, hne, -⟩ := (mem_upcomingRevisions p1 p2 p3 p4 p5 a ts).mp h2
    rw [hr] at hr'
    cases hr'
    exact hne hrange

end Clivra
